import Mathlib

/-!
Shallow embedding of the Sudoku engine of `script.js` (class SudokuGame).

The grid is modelled as a function `Nat → Nat → Nat` over the 9×9 board
(value 0 means empty), matching the JS 9×9 array of integers.  In-place
mutation is modelled by explicit state passing: functions that mutate
`this.grid` take a grid and return the updated grid.  JS `Math.random()`
is modelled by an oracle `rnd : Nat → Nat` consumed at increasing indices.
Recursions whose termination is not structural (the backtracking solver,
the solution counter, the spiral position generator) use an explicit fuel
parameter large enough for the 9×9 board; fuel exhaustion returns the
failure value of the corresponding JS base case.

The class body of `script.js` defines several methods twice; following
JavaScript class semantics the later definition wins.  Every definition
below embeds the LIVE (last) definition of its method, at the line noted
in its comment.
-/

set_option maxRecDepth 40000
set_option synthInstance.maxSize 2000
set_option synthInstance.maxHeartbeats 1000000

namespace Sudoku

/-- A 9×9 Sudoku grid: `g r c` is the value of row `r`, column `c`;
`0` means empty.  Cells outside the 9×9 board are irrelevant to the
embedded code, which only ever indexes rows and columns `0..8`. -/
def Grid := Nat → Nat → Nat

/-- Assignment `grid[r][c] = v`, modelled functionally. -/
def setCell (g : Grid) (r c v : Nat) : Grid :=
  fun r' c' => if r' = r ∧ c' = c then v else g r' c'

/-- Build a grid from a row-major list literal (missing entries read 0),
used for the concrete grids appearing in the theorems below. -/
def mkGrid (l : List (List Nat)) : Grid :=
  fun r c => ((l.get? r).getD []).getD c 0

/-- `isValidMove(row, col, number)` (script.js line 745): true iff no cell
of the same row, column or 3×3 block OTHER THAN `(row, col)` itself holds
`number`.  The row check skips `c == col`, the column check skips
`r == row`, and the block check skips `(row, col)`. -/
def isValidMove (g : Grid) (row col number : Nat) : Bool :=
  ((List.range 9).all fun c => c == col || g row c != number) &&
  ((List.range 9).all fun r => r == row || g r col != number) &&
  (let blockRow := row / 3 * 3
   let blockCol := col / 3 * 3
   (List.range 3).all fun i => (List.range 3).all fun j =>
     (blockRow + i == row && blockCol + j == col) ||
       g (blockRow + i) (blockCol + j) != number)

/-- `isValidMoveForGrid(grid, row, col, num)` (live definition, script.js
line 1687): true iff NO cell of the row, column or 3×3 block holds `num`;
unlike `isValidMove` it does not exclude the cell `(row, col)` itself. -/
def isValidMoveForGrid (g : Grid) (row col num : Nat) : Bool :=
  ((List.range 9).all fun c => g row c != num) &&
  ((List.range 9).all fun r => g r col != num) &&
  (let boxRow := row / 3 * 3
   let boxCol := col / 3 * 3
   (List.range 3).all fun i => (List.range 3).all fun j =>
     g (boxRow + i) (boxCol + j) != num)

/-- `checkWin()` (script.js line 1052): true iff every cell of the 9×9
grid is non-empty.  It performs no consistency check. -/
def checkWin (g : Grid) : Bool :=
  (List.range 9).all fun row => (List.range 9).all fun col => g row col != 0

/-- The duplicate scan of `validateGameState` over one unit: walking the
unit's cells in order while remembering the non-zero values already seen
(the JS `Set`), a duplicate is reported when a later cell repeats one. -/
def scanDup (g : Grid) : List (Nat × Nat) → List Nat → Bool
  | [], _ => false
  | p :: rest, seen =>
    if g p.1 p.2 != 0 then
      if seen.contains (g p.1 p.2) then true
      else scanDup g rest (g p.1 p.2 :: seen)
    else scanDup g rest seen

/-- The cells of row `row`, in column order. -/
def rowCells (row : Nat) : List (Nat × Nat) :=
  (List.range 9).map fun col => (row, col)

/-- The cells of column `col`, in row order. -/
def colCells (col : Nat) : List (Nat × Nat) :=
  (List.range 9).map fun row => (row, col)

/-- The cells of the 3×3 block whose top-left corner is
`(startRow, startCol)`, in row-major order. -/
def blockCellList (startRow startCol : Nat) : List (Nat × Nat) :=
  (List.range 3).flatMap fun i => (List.range 3).map fun j => (startRow + i, startCol + j)

/-- `validateGameState()` (script.js line 2417): scans every row, column
and 3×3 block for duplicate non-zero values and returns true iff the
collected error list is empty. -/
def validateGameState (g : Grid) : Bool :=
  !((List.range 9).any fun row => scanDup g (rowCells row) []) &&
  !((List.range 9).any fun col => scanDup g (colCells col) []) &&
  !((List.range 3).any fun blockRow => (List.range 3).any fun blockCol =>
      scanDup g (blockCellList (blockRow * 3) (blockCol * 3)) [])

/-- Scan for the first empty cell in row-major order, as the nested
`for` loops of `solveSudoku` do. -/
def findEmptyCell (g : Grid) : Option (Nat × Nat) :=
  (List.range 9).findSome? fun row =>
    (List.range 9).findSome? fun col =>
      if g row col = 0 then some (row, col) else none

/-- The candidate loop of `solveSudoku` at the first empty cell
`(row, col)`: try each number in order; a validated number is written,
the solver recurses (`solveRest`), and on failure the cell is reset to 0
before the next candidate.  `solveRest` is the recursive call at the
next fuel level. -/
def tryNums (solveRest : Grid → Bool × Grid) (row col : Nat) :
    Grid → List Nat → Bool × Grid
  | g, [] => (false, g)
  | g, n :: rest =>
    if isValidMove g row col n then
      let res := solveRest (setCell g row col n)
      if res.1 then res
      else tryNums solveRest row col (setCell res.2 row col 0) rest
    else tryNums solveRest row col g rest

/-- `solveSudoku()` (live definition, script.js line 1881), with the
in-place mutation of `this.grid` made explicit: the result is the return
value paired with the grid at the moment of return.  Each recursive call
fills one empty cell, so fuel 82 (in `solveSudoku` below) covers every
9×9 grid; fuel 0 returns the JS failure value. -/
def solveSudokuAux : Nat → Grid → Bool × Grid
  | 0, g => (false, g)
  | fuel + 1, g =>
    match findEmptyCell g with
    | none => (true, g)
    | some (row, col) =>
      tryNums (solveSudokuAux fuel) row col g [1, 2, 3, 4, 5, 6, 7, 8, 9]

/-- The in-place solver entry point: `solveSudoku()` run on a grid with
enough fuel for the at most 81 cells it can fill. -/
def solveSudoku (g : Grid) : Bool × Grid := solveSudokuAux 82 g

/-- The candidate loop of `countSolutions` at the empty cell
`(row, col)`: a validated number is written, the recursion (`next`)
continues at the next column, the cell is reset to 0, and the loop stops
early once the running count has reached `maxSolutions`.  The running
count (the JS `this.solutionCount` field) is threaded explicitly. -/
def countLoop (next : Grid → Nat → Nat × Grid) (row col maxSolutions : Nat) :
    Grid → Nat → List Nat → Nat × Grid
  | g, cnt, [] => (cnt, g)
  | g, cnt, n :: rest =>
    if isValidMoveForGrid g row col n then
      let res := next (setCell g row col n) cnt
      let g2 := setCell res.2 row col 0
      if maxSolutions ≤ res.1 then (res.1, g2)
      else countLoop next row col maxSolutions g2 res.1 rest
    else countLoop next row col maxSolutions g cnt rest

/-- `countSolutions(grid, row, col, maxSolutions)` (live definition,
script.js line 2258), with the shared mutable `this.solutionCount` field
threaded as an explicit accumulator and the in-place grid mutation made
explicit.  Every recursive call strictly advances the position
`(row, col)`, so recursion depth is below 92 and fuel 100 (used by
`countSolutionsTop`) is enough; fuel 0 returns the state unchanged. -/
def countSolutionsAux : Nat → Grid → Nat → Nat → Nat → Nat → Nat × Grid
  | 0, g, _, _, cnt, _ => (cnt, g)
  | fuel + 1, g, row, col, cnt, maxSolutions =>
    if maxSolutions ≤ cnt then (cnt, g)
    else if row = 9 then (cnt + 1, g)
    else if col = 9 then countSolutionsAux fuel g (row + 1) 0 cnt maxSolutions
    else if g row col ≠ 0 then countSolutionsAux fuel g row (col + 1) cnt maxSolutions
    else
      countLoop (fun g' cnt' => countSolutionsAux fuel g' row (col + 1) cnt' maxSolutions)
        row col maxSolutions g cnt [1, 2, 3, 4, 5, 6, 7, 8, 9]

/-- The solution count of a grid: `countSolutions(grid, 0, 0, max)` with
the count field starting at 0. -/
def countSolutionsTop (g : Grid) (maxSolutions : Nat) : Nat :=
  (countSolutionsAux 100 g 0 0 0 maxSolutions).1

/-- `hasUniqueSolution()` (live definition, script.js line 2247): copies
`this.grid` into a temporary grid, resets the count, counts solutions
with cutoff 2 on the copy, and reports whether the count is exactly 1.
In this pure embedding the copy is implicit: the caller's grid is passed
by value and `countSolutionsAux` only ever sees the copy. -/
def hasUniqueSolution (g : Grid) : Bool :=
  countSolutionsTop g 2 == 1

/-- `isPuzzleSolvableForGrid(grid)` (script.js line 1808), also the body
of the live `isPuzzleSolvable()` (line 2030): despite its name it is not
a solver call but a dead-cell scan — every empty cell must admit at
least one valid number. -/
def isPuzzleSolvableForGrid (g : Grid) : Bool :=
  (List.range 9).all fun row => (List.range 9).all fun col =>
    g row col != 0 || (List.range' 1 9).any fun num => isValidMoveForGrid g row col num

/-- `validateAllNumbersCanBePlaced()` (live definition, script.js line
2045): in every 3×3 block, every number 1–9 either already occurs or can
be placed in some empty cell of the block. -/
def validateAllNumbersCanBePlaced (g : Grid) : Bool :=
  (List.range 3).all fun blockRow => (List.range 3).all fun blockCol =>
    (List.range' 1 9).all fun num =>
      let startRow := blockRow * 3
      let startCol := blockCol * 3
      ((blockCellList startRow startCol).any fun p => g p.1 p.2 == num) ||
      ((blockCellList startRow startCol).any fun p =>
        g p.1 p.2 == 0 && isValidMove g p.1 p.2 num)

/-- `findExistingPositions(number)` (script.js line 2157): all cells
currently holding `number`, in row-major order. -/
def findExistingPositions (g : Grid) (number : Nat) : List (Nat × Nat) :=
  ((List.range 9).flatMap fun row => (List.range 9).map fun col => (row, col)).filter
    fun p => g p.1 p.2 == number

/-- `findRequiredBlocksForNumber(number, existingPositions)` (script.js
line 2170): the blocks that do not yet contain the number. -/
def findRequiredBlocksForNumber (existingPositions : List (Nat × Nat)) : List (Nat × Nat) :=
  ((List.range 3).flatMap fun blockRow =>
    (List.range 3).map fun blockCol => (blockRow, blockCol)).filter
    fun b => !(existingPositions.any fun p => p.1 / 3 == b.1 && p.2 / 3 == b.2)

/-- `canPlaceNumberInSpecificBlock(number, blockRow, blockCol,
existingPositions)` (script.js line 2195): some empty cell of the block
shares no row, column or block with an existing position of the
number. -/
def canPlaceNumberInSpecificBlock (g : Grid) (blockRow blockCol : Nat)
    (existingPositions : List (Nat × Nat)) : Bool :=
  (blockCellList (blockRow * 3) (blockCol * 3)).any fun p =>
    g p.1 p.2 == 0 &&
    !(existingPositions.any fun q => q.1 == p.1) &&
    !(existingPositions.any fun q => q.2 == p.2) &&
    !(existingPositions.any fun q => q.1 / 3 == blockRow && q.2 / 3 == blockCol)

/-- `validateNumberPlacementConstraints()` (script.js line 2133): every
number can still be placed in every block that misses it. -/
def validateNumberPlacementConstraints (g : Grid) : Bool :=
  (List.range' 1 9).all fun num =>
    (findRequiredBlocksForNumber (findExistingPositions g num)).all fun b =>
      canPlaceNumberInSpecificBlock g b.1 b.2 (findExistingPositions g num)

/-- The difficulty levels of `this.difficulties` (script.js line 33). -/
inductive Difficulty
  | easy
  | medium
  | hard
deriving DecidableEq

/-- The difficulty → target-given-count table (script.js line 33). -/
def difficulties : Difficulty → Nat
  | .easy => 30
  | .medium => 23
  | .hard => 17

/-- `validatePuzzleCompletely()` (script.js line 2094): the generator's
final gate.  Note the last conjunct: the expensive unique-solution check
is SKIPPED when the difficulty is `hard`. -/
def validatePuzzleCompletely (difficulty : Difficulty) (g : Grid) : Bool :=
  validateGameState g &&
  isPuzzleSolvableForGrid g &&
  validateAllNumbersCanBePlaced g &&
  validateNumberPlacementConstraints g &&
  (difficulty == Difficulty.hard || hasUniqueSolution g)

/-- `getPossibleNumbers(row, col)` (script.js line 2640): the numbers
1–9 that `isValidMove` accepts at `(row, col)`. -/
def getPossibleNumbers (g : Grid) (row col : Nat) : List Nat :=
  (List.range' 1 9).filter fun num => isValidMove g row col num

/-- A hint as returned by the hint engine: cell, number, and the
justification category reported to the player. -/
structure Hint where
  row : Nat
  col : Nat
  number : Nat
  reason : String
deriving DecidableEq

/-- The naked-single scan of `solveHint()` (script.js line 2531): the
first cell in row-major order that is empty and has exactly one possible
number. -/
def findNakedSingle (g : Grid) : Option (Nat × Nat × Nat) :=
  (List.range 9).findSome? fun row =>
    (List.range 9).findSome? fun col =>
      if g row col = 0 then
        match getPossibleNumbers g row col with
        | [n] => some (row, col, n)
        | _ => none
      else none

/-- The row pass of `findHiddenSingle()` (script.js line 2650): for each
row and number, the columns whose cell is empty and accepts the number;
a singleton list is a hidden single. -/
def findHiddenSingleRow (g : Grid) : Option Hint :=
  (List.range 9).findSome? fun row =>
    (List.range' 1 9).findSome? fun num =>
      match (List.range 9).filter
          (fun col => g row col == 0 && isValidMove g row col num) with
      | [col] => some ⟨row, col, num, "row"⟩
      | _ => none

/-- The column pass of `findHiddenSingle()` (script.js line 2663). -/
def findHiddenSingleCol (g : Grid) : Option Hint :=
  (List.range 9).findSome? fun col =>
    (List.range' 1 9).findSome? fun num =>
      match (List.range 9).filter
          (fun row => g row col == 0 && isValidMove g row col num) with
      | [row] => some ⟨row, col, num, "column"⟩
      | _ => none

/-- The 3×3-box pass of `findHiddenSingle()` (script.js line 2677). -/
def findHiddenSingleBox (g : Grid) : Option Hint :=
  (List.range 3).findSome? fun boxRow =>
    (List.range 3).findSome? fun boxCol =>
      (List.range' 1 9).findSome? fun num =>
        match (blockCellList (boxRow * 3) (boxCol * 3)).filter
            (fun p => g p.1 p.2 == 0 && isValidMove g p.1 p.2 num) with
        | [p] => some ⟨p.1, p.2, num, "3x3 box"⟩
        | _ => none

/-- `findHiddenSingle()` (script.js line 2650): rows, then columns, then
boxes; the first match wins. -/
def findHiddenSingle (g : Grid) : Option Hint :=
  match findHiddenSingleRow g with
  | some h => some h
  | none =>
    match findHiddenSingleCol g with
    | some h => some h
    | none => findHiddenSingleBox g

/-- The game state touched by the engine operations embedded here: the
grid and the `isGameWon` flag.  The remaining fields of the JS class
(notes, counters, timers, DOM handles) are presentation state that none
of the embedded operations read back. -/
structure GameState where
  grid : Grid
  isGameWon : Bool

/-- `solveHint()` (script.js line 2527).  When a naked or hidden single
is found, the suggested number is WRITTEN into the grid
(`this.grid[row][col] = ...`) before the hint message is shown; the
helper calls on that path (`updateHintCount`, `updateDisplay`,
`updateProgress` at line 4232, highlight/sound/animation) only touch
counters and the DOM, not the grid or `isGameWon`.  The returned option
is the hint that was reported, `none` when only the generic strategy
message was shown. -/
def solveHint (st : GameState) : GameState × Option Hint :=
  if st.isGameWon then (st, none)
  else
    match findNakedSingle st.grid with
    | some (row, col, n) =>
      ({ st with grid := setCell st.grid row col n }, some ⟨row, col, n, "naked single"⟩)
    | none =>
      match findHiddenSingle st.grid with
      | some h => ({ st with grid := setCell st.grid h.row h.col h.number }, some h)
      | none => (st, none)

/-- Iterated hint calls: the game state after `n` calls to
`solveHint()`. -/
def hintIter : Nat → GameState → GameState
  | 0, st => st
  | n + 1, st => hintIter n (solveHint st).1

/-- `setNumber(row, col, number)` (script.js line 489), the direct
cell-placement path: the cell is written first, the move is validated on
the mutated grid (`number === 0`, erasing, is always accepted), a valid
move is kept and ends with `if (this.checkWin()) this.gameWon()` —
`gameWon()` (line 1063) sets `isGameWon = true` — while an invalid move
restores the old value.  The history/notes/sound/DOM calls on both
branches do not touch the grid or `isGameWon`. -/
def setNumber (st : GameState) (row col number : Nat) : GameState :=
  let oldValue := st.grid row col
  let g1 := setCell st.grid row col number
  if number == 0 || isValidMove g1 row col number then
    if checkWin g1 then { grid := g1, isGameWon := true }
    else { grid := g1, isGameWon := st.isGameWon }
  else
    { grid := setCell g1 row col oldValue, isGameWon := st.isGameWon }

/-- The candidate loop of `solveSudokuForGrid` at the first empty cell
`(row, col)`: identical in structure to `tryNums`, but validated by
`isValidMoveForGrid` as at script.js line 2623. -/
def tryNumsForGrid (solveRest : Grid → Bool × Grid) (row col : Nat) :
    Grid → List Nat → Bool × Grid
  | g, [] => (false, g)
  | g, n :: rest =>
    if isValidMoveForGrid g row col n then
      let res := solveRest (setCell g row col n)
      if res.1 then res
      else tryNumsForGrid solveRest row col (setCell res.2 row col 0) rest
    else tryNumsForGrid solveRest row col g rest

/-- `solveSudokuForGrid(grid)` (script.js line 2618), the grid-argument
solver used by the auto-solve path: the same row-major backtracking as
`solveSudoku`, but validating with `isValidMoveForGrid`.  As for the
other solver, fuel 82 (in `solveSudokuForGrid` below) covers every 9×9
grid. -/
def solveSudokuForGridAux : Nat → Grid → Bool × Grid
  | 0, g => (false, g)
  | fuel + 1, g =>
    match findEmptyCell g with
    | none => (true, g)
    | some (row, col) =>
      tryNumsForGrid (solveSudokuForGridAux fuel) row col g [1, 2, 3, 4, 5, 6, 7, 8, 9]

/-- The grid-argument solver entry point, run with enough fuel for the
at most 81 cells it can fill. -/
def solveSudokuForGrid (g : Grid) : Bool × Grid := solveSudokuForGridAux 82 g

/-- The `matchesSolution` scan of `solvePuzzle` (script.js line 2593):
the solved grid equals the stored solution on every cell. -/
def matchesSolution (g solution : Grid) : Bool :=
  (List.range 9).all fun row => (List.range 9).all fun col =>
    g row col == solution row col

/-- `solvePuzzle()` (script.js line 2573), the auto-solve path: unless
the game is already won, `solveSudokuForGrid` runs on a copy of the
grid; on success the solved copy replaces `this.grid` and, exactly when
it matches the stored solution cell for cell, `gameWon()` (line 1063)
sets `isGameWon = true` — with no `checkWin` call anywhere on this
path.  On solver failure the copy is discarded and the state is
unchanged.  The stored solution `this.solution` is passed explicitly;
the `wasAutoSolved` best-time bookkeeping flag and the display calls
are presentation state and are not modelled. -/
def solvePuzzle (st : GameState) (solution : Grid) : GameState :=
  if st.isGameWon then st
  else
    if (solveSudokuForGrid st.grid).1 then
      if matchesSolution (solveSudokuForGrid st.grid).2 solution then
        { grid := (solveSudokuForGrid st.grid).2, isGameWon := true }
      else
        { grid := (solveSudokuForGrid st.grid).2, isGameWon := st.isGameWon }
    else st

/-- JS `parseInt` applied to a single character of the puzzle string,
with `none` modelling `NaN`: a digit parses to its value, any other
character — and `undefined`, the result of indexing past the end of the
string — parses to `NaN`. -/
def parseIntChar : Option Char → Option Nat
  | some ch => if ch.isDigit then some (ch.toNat - 48) else none
  | none => none

/-- The state populated by `loadPuzzleFromLibrary`; cell values are
`Option Nat` so that `NaN` (`none`) can be represented. -/
structure LoadedState where
  grid : Nat → Nat → Option Nat
  givenCells : Nat → Nat → Bool
  solution : Nat → Nat → Option Nat

/-- `loadPuzzleFromLibrary(puzzleString, solutionString)` (script.js
line 2292).  The grids are reset to zeros, then the loop over
`i = 0..80` writes row `i / 9`, column `i % 9` from character `i` of
each string: a `'.'` puzzle character gives an empty non-given cell, any
other character is fed to `parseInt` and the cell is marked as given.
There is no length or character-set check anywhere on this path; the
function has no callers that validate either.  Written as a function of
`(r, c)`, cell `(r, c)` with `r, c < 9` is written exactly once, from
character `r * 9 + c`. -/
def loadPuzzleFromLibrary (puzzleString solutionString : List Char) : LoadedState :=
  { grid := fun r c =>
      if r < 9 ∧ c < 9 then
        if puzzleString.get? (r * 9 + c) ≠ some '.'
        then parseIntChar (puzzleString.get? (r * 9 + c))
        else some 0
      else some 0
    givenCells := fun r c =>
      if r < 9 ∧ c < 9 then decide (puzzleString.get? (r * 9 + c) ≠ some '.')
      else false
    solution := fun r c =>
      if r < 9 ∧ c < 9 then parseIntChar (solutionString.get? (r * 9 + c))
      else some 0 }

/-- Swap of two list entries, the body of the Fisher–Yates loop; JS
array indexing is always in range at the call sites, and an out-of-range
index leaves the list unchanged here. -/
def swapAt (l : List α) (i j : Nat) : List α :=
  match l.get? i, l.get? j with
  | some vi, some vj => (l.set i vj).set j vi
  | _, _ => l

/-- The Fisher–Yates loop of the live `shuffleArray` (script.js line
4209), on the copy: `i` runs from `l.length - 1` down to 1 and each step
swaps `i` with a random index `j ≤ i`; `Math.floor(Math.random() *
(i + 1))` is modelled as `rnd k % (i + 1)` with `k` advancing once per
step. -/
def shuffleGo (rnd : Nat → Nat) : Nat → Nat → List α → List α
  | _, 0, l => l
  | k, i + 1, l => shuffleGo rnd (k + 1) i (swapAt l (i + 1) (rnd k % (i + 2)))

/-- `shuffleArray(array)` — the LIVE definition (script.js line 4209),
which copies the array, shuffles the copy and RETURNS it.  The earlier
definition at line 1369 (in-place, returning `undefined`) is shadowed by
this one under JavaScript class semantics, so every `this.shuffleArray`
call in the class resolves here; call sites that relied on the shadowed
in-place behaviour and discard the return value (e.g. `fillBlock`,
`removeNumbersForDifficulty`) therefore receive an unshuffled array,
while `generateRemovalPositions` uses the return value and receives the
shuffled copy. -/
def shuffleArray (rnd : Nat → Nat) (k : Nat) (l : List α) : List α :=
  shuffleGo rnd k (l.length - 1) l

/-- Insertion into a sorted list, for the comparator-based
`Array.prototype.sort` calls of `generateRemovalPositions`. -/
def insertSorted (le : α → α → Bool) (a : α) : List α → List α
  | [] => [a]
  | b :: t => if le a b then a :: b :: t else b :: insertSorted le a t

/-- Comparator sort modelling the JS `positions.sort(...)` calls. -/
def sortBy (le : α → α → Bool) : List α → List α
  | [] => []
  | a :: t => insertSorted le a (sortBy le t)

/-- The removal patterns of `createVariedPuzzle` (script.js line 4071),
in the order of the `removalPatterns` array. -/
inductive Pattern
  | random
  | blockwise
  | rowwise
  | columnwise
  | spiral
  | checkerboard
deriving DecidableEq

/-- The `removalPatterns` array (script.js line 4072). -/
def removalPatterns : List Pattern :=
  [.random, .blockwise, .rowwise, .columnwise, .spiral, .checkerboard]

/-- All 81 board positions in row-major order, as built at the top of
`generateRemovalPositions` (script.js line 4131). -/
def allPositions : List (Nat × Nat) :=
  (List.range 9).flatMap fun row => (List.range 9).map fun col => (row, col)

/-- The direction table of `generateSpiralPositions` (script.js line
4177): right, down, left, up. -/
def spiralDirs : List (Int × Int) := [(0, 1), (1, 0), (0, -1), (-1, 0)]

/-- One straight run of the spiral: `steps` moves in direction `dir`,
pushing every unvisited in-bounds cell.  The JS `visited` matrix always
holds exactly the pushed positions, so it is modelled by membership in
the position list. -/
def spiralRun (dir : Nat) : List (Nat × Nat) → Int → Int → Nat →
    List (Nat × Nat) × Int × Int
  | positions, row, col, 0 => (positions, row, col)
  | positions, row, col, j + 1 =>
    let d := spiralDirs.getD dir (0, 0)
    let row' := row + d.1
    let col' := col + d.2
    let p := (row'.toNat, col'.toNat)
    let positions' :=
      if 0 ≤ row' ∧ row' < 9 ∧ 0 ≤ col' ∧ col' < 9 ∧ p ∉ positions
      then positions ++ [p] else positions
    spiralRun dir positions' row' col' j

/-- The `while (positions.length < 81)` loop of
`generateSpiralPositions`: each iteration performs two runs of `steps`
moves (the direction advancing after each run) and then increments
`steps`.  The loop is fuel-bounded; running out of fuel models
non-termination and yields `none`. -/
def spiralOuter : Nat → List (Nat × Nat) → Nat → Nat → Int → Int →
    Option (List (Nat × Nat))
  | 0, _, _, _, _, _ => none
  | fuel + 1, positions, dir, steps, row, col =>
    if positions.length < 81 then
      let s1 := spiralRun dir positions row col steps
      let d1 := (dir + 1) % 4
      let s2 := spiralRun d1 s1.1 s1.2.1 s1.2.2 steps
      let d2 := (d1 + 1) % 4
      spiralOuter fuel s2.1 d2 (steps + 1) s2.2.1 s2.2.2
    else some positions

/-- `generateSpiralPositions()` (script.js line 4174): spiral outward
from the centre `(4, 4)`, which is pushed first. -/
def generateSpiralPositions : Option (List (Nat × Nat)) :=
  spiralOuter 20 [(4, 4)] 0 1 4 4

/-- `generateRemovalPositions(pattern)` (script.js line 4130).  The
`random` and `blockwise` branches use the return value of the live
`shuffleArray`; `blockwise` then sorts by block index, `rowwise` and
`columnwise` sort the row-major list, `spiral` delegates to the
fuel-bounded spiral walk, and `checkerboard` filters the cells of even
coordinate sum. -/
def generateRemovalPositions (rnd : Nat → Nat) (k : Nat) :
    Pattern → Option (List (Nat × Nat))
  | .random => some (shuffleArray rnd k allPositions)
  | .blockwise =>
    some (sortBy (fun a b => a.1 / 3 * 3 + a.2 / 3 ≤ b.1 / 3 * 3 + b.2 / 3)
      (shuffleArray rnd k allPositions))
  | .rowwise => some (sortBy (fun a b => a.1 ≤ b.1) allPositions)
  | .columnwise => some (sortBy (fun a b => a.2 ≤ b.2) allPositions)
  | .spiral => generateSpiralPositions
  | .checkerboard => some (allPositions.filter fun p => (p.1 + p.2) % 2 == 0)

/-- The removal loop of `createVariedPuzzle` (script.js line 4088): for
each candidate position (stopping once the removal target is reached)
the cell is zeroed, and the removal is kept only if `hasUniqueSolution`
still holds, otherwise the original value is restored. -/
def carveLoop (targetRemovalCount : Nat) : Grid → Nat → List (Nat × Nat) → Grid × Nat
  | g, removedCount, [] => (g, removedCount)
  | g, removedCount, p :: rest =>
    if targetRemovalCount ≤ removedCount then (g, removedCount)
    else
      let originalValue := g p.1 p.2
      let g' := setCell g p.1 p.2 0
      if hasUniqueSolution g' then carveLoop targetRemovalCount g' (removedCount + 1) rest
      else carveLoop targetRemovalCount (setCell g' p.1 p.2 originalValue) removedCount rest

/-- The puzzle state `createVariedPuzzle` leaves behind: the carved
grid, the given-cell mask, and the boolean it returns. -/
structure PuzzleOut where
  grid : Grid
  givenMask : Nat → Nat → Bool
  ok : Bool

/-- A default `PuzzleOut`, used only to name the concrete output of
`createVariedPuzzle` in closed statements. -/
def defaultOut : PuzzleOut :=
  { grid := fun _ _ => 0, givenMask := fun _ _ => false, ok := false }

/-- `createVariedPuzzle(difficulty)` (script.js line 4067), starting
from the complete solution grid stored by the caller
(`generateVariedPuzzle`, line 4041).  A removal pattern is picked at
random, the removal loop carves the grid, and the remaining non-zero
cells become the given mask.  The returned boolean compares the achieved
given count against `targetGivenCount * 0.9`; at the table values 30,
23, 17 the double-precision products round so that the comparison
agrees with the exact rational one, written here as
`10 * given ≥ 9 * target`.  The result is `none` exactly when the
position generation fails (spiral fuel exhaustion). -/
def createVariedPuzzle (rnd : Nat → Nat) (k : Nat) (difficulty : Difficulty)
    (solution : Grid) : Option PuzzleOut :=
  match generateRemovalPositions rnd (k + 1)
      (removalPatterns.getD (rnd k % removalPatterns.length) Pattern.random) with
  | none => none
  | some positions =>
    let res := carveLoop (81 - difficulties difficulty) solution 0 positions
    some { grid := res.1
           givenMask := fun r c => res.1 r c != 0
           ok := 10 * (81 - res.2) ≥ 9 * difficulties difficulty }

/-! Specification-level predicates, used to state what the theorems
below say about the embedded operations. -/

/-- Two board cells constrain each other: same row, same column, or
same 3×3 block. -/
def SameUnit (r c r' c' : Nat) : Prop :=
  r' = r ∨ c' = c ∨ (r' / 3 = r / 3 ∧ c' / 3 = c / 3)

/-- No two distinct cells of a row, column or block hold the same
non-zero value. -/
def NoConflicts (g : Grid) : Prop :=
  ∀ r, r < 9 → ∀ c, c < 9 → ∀ r', r' < 9 → ∀ c', c' < 9 →
    ¬(r = r' ∧ c = c') → SameUnit r c r' c' → g r c ≠ 0 → g r c ≠ g r' c'

/-- Every cell of the board holds an integer in `[0, 9]` — the data
model's range invariant for grids. -/
def WellFormed (g : Grid) : Prop :=
  ∀ r, r < 9 → ∀ c, c < 9 → g r c ≤ 9

/-- Every cell of the board is filled. -/
def Full (g : Grid) : Prop :=
  ∀ r, r < 9 → ∀ c, c < 9 → g r c ≠ 0

/-- `s` agrees with `g` on every filled cell of `g`. -/
def Extends (g s : Grid) : Prop :=
  ∀ r, r < 9 → ∀ c, c < 9 → g r c ≠ 0 → s r c = g r c

/-- `s` is a completion of `g` to a full valid solution: it extends `g`,
fills the board with digits 1–9, and has no conflicts. -/
def Completes (g s : Grid) : Prop :=
  Extends g s ∧ Full s ∧ WellFormed s ∧ NoConflicts s

instance (r c r' c' : Nat) : Decidable (SameUnit r c r' c') := by
  unfold SameUnit; infer_instance

instance (g : Grid) : Decidable (WellFormed g) := by
  unfold WellFormed; infer_instance

instance (g : Grid) : Decidable (NoConflicts g) := by
  unfold NoConflicts; infer_instance

/-! Concrete inputs used by the closed statements below.  `gBase` is the
known valid complete grid hard-coded in `generateSimplePuzzle`
(script.js line 4061). -/

/-- The complete valid solution grid from `generateSimplePuzzle`. -/
def gBase : Grid := mkGrid [
  [5, 3, 4, 6, 7, 8, 9, 1, 2],
  [6, 7, 2, 1, 9, 5, 3, 4, 8],
  [1, 9, 8, 3, 4, 2, 5, 6, 7],
  [8, 5, 9, 7, 6, 1, 4, 2, 3],
  [4, 2, 6, 8, 5, 3, 7, 9, 1],
  [7, 1, 3, 9, 2, 4, 8, 5, 6],
  [9, 6, 1, 5, 3, 7, 2, 8, 4],
  [2, 8, 7, 4, 1, 9, 6, 3, 5],
  [3, 4, 5, 2, 8, 6, 1, 7, 9]]

/-- `gBase` with the unavoidable set `(3,5), (3,8), (4,5), (4,8)`
(values 1/3 and 3/1) blanked: the two ways to refill it give exactly two
solutions. -/
def gTwoSol : Grid := mkGrid [
  [5, 3, 4, 6, 7, 8, 9, 1, 2],
  [6, 7, 2, 1, 9, 5, 3, 4, 8],
  [1, 9, 8, 3, 4, 2, 5, 6, 7],
  [8, 5, 9, 7, 6, 0, 4, 2, 0],
  [4, 2, 6, 8, 5, 0, 7, 9, 0],
  [7, 1, 3, 9, 2, 4, 8, 5, 6],
  [9, 6, 1, 5, 3, 7, 2, 8, 4],
  [2, 8, 7, 4, 1, 9, 6, 3, 5],
  [3, 4, 5, 2, 8, 6, 1, 7, 9]]

/-- `gBase` with only cell `(0,0)` blanked: a puzzle with exactly one
solution. -/
def gOneBlank : Grid := mkGrid [
  [0, 3, 4, 6, 7, 8, 9, 1, 2],
  [6, 7, 2, 1, 9, 5, 3, 4, 8],
  [1, 9, 8, 3, 4, 2, 5, 6, 7],
  [8, 5, 9, 7, 6, 1, 4, 2, 3],
  [4, 2, 6, 8, 5, 3, 7, 9, 1],
  [7, 1, 3, 9, 2, 4, 8, 5, 6],
  [9, 6, 1, 5, 3, 7, 2, 8, 4],
  [2, 8, 7, 4, 1, 9, 6, 3, 5],
  [3, 4, 5, 2, 8, 6, 1, 7, 9]]

/-- The fully filled grid holding 1 in every cell. -/
def gOnes : Grid := fun _ _ => 1

/-- A conflict-free grid with no completion: cell `(0,0)` is empty, its
row blocks 1–8 and the 9 at `(1,0)` blocks 9. -/
def gDead : Grid := mkGrid [
  [0, 1, 2, 3, 4, 5, 6, 7, 8],
  [9, 0, 0, 0, 0, 0, 0, 0, 0]]

/-- A grid whose first cell is a naked single: row 0 already holds
2–9, so only 1 fits at `(0,0)`. -/
def gNaked : Grid := mkGrid [
  [0, 2, 3, 4, 5, 6, 7, 8, 9]]

/-- `gBase` with cell `(0,0)` blanked, used as a play state one move
away from completion. -/
def gAlmost : Grid := gOneBlank

/-- A carving seed in which every row is `1..9`: blanking any single
cell leaves that cell with no valid value (its row misses only the
blanked digit, which its column still holds), so every removal is
rejected. -/
def solRows : Grid := mkGrid (List.replicate 9 [1, 2, 3, 4, 5, 6, 7, 8, 9])

/-- A random oracle returning 5 everywhere: `createVariedPuzzle` picks
removal pattern index `5 % 6 = 5`, the checkerboard, which consumes no
further randomness. -/
def rnd5 : Nat → Nat := fun _ => 5

/-- A grid holding 5 at `(0,0)` and nothing else. -/
def gSelf : Grid := mkGrid [[5]]

/-! Basic lemmas about cell assignment. -/

theorem setCell_self (g : Grid) (r c v : Nat) : setCell g r c v r c = v := by
  simp [setCell]

theorem setCell_other (g : Grid) (r c v r' c' : Nat) (h : ¬(r' = r ∧ c' = c)) :
    setCell g r c v r' c' = g r' c' := by
  simp [setCell, h]

theorem setCell_setCell (g : Grid) (r c v w : Nat) :
    setCell (setCell g r c v) r c w = setCell g r c w := by
  funext r' c'
  by_cases h : r' = r ∧ c' = c <;> simp [setCell, h]

theorem setCell_eq_self (g : Grid) (r c v : Nat) (h : g r c = v) :
    setCell g r c v = g := by
  funext r' c'
  by_cases h' : r' = r ∧ c' = c
  · obtain ⟨hr, hc⟩ := h'
    subst hr; subst hc
    simp [setCell, h]
  · simp [setCell, h']

/-! Characterizations of the validators and the win predicate. -/

theorem isValidMove_iff (g : Grid) (row col v : Nat) (hr : row < 9) (hc : col < 9) :
    isValidMove g row col v = true ↔
      ∀ r, r < 9 → ∀ c, c < 9 → SameUnit row col r c → ¬(r = row ∧ c = col) →
        g r c ≠ v := by
  simp only [isValidMove, Bool.and_eq_true, List.all_eq_true, List.mem_range,
    Bool.or_eq_true, beq_iff_eq, bne_iff_ne, ne_eq]
  constructor
  · rintro ⟨⟨hrowScan, hcolScan⟩, hblock⟩ r hr9 c hc9 hunit hne
    rcases hunit with h | h | ⟨hbr, hbc⟩
    · subst h
      rcases hrowScan c hc9 with h | h
      · exact absurd ⟨rfl, h⟩ hne
      · exact h
    · subst h
      rcases hcolScan r hr9 with h | h
      · exact absurd ⟨h, rfl⟩ hne
      · exact h
    · have hi : r = row / 3 * 3 + (r - row / 3 * 3) ∧ r - row / 3 * 3 < 3 := by omega
      have hj : c = col / 3 * 3 + (c - col / 3 * 3) ∧ c - col / 3 * 3 < 3 := by omega
      rcases hblock (r - row / 3 * 3) hi.2 (c - col / 3 * 3) hj.2 with h | h
      · exact absurd ⟨by omega, by omega⟩ hne
      · rw [hi.1, hj.1]; exact h
  · intro h
    refine ⟨⟨fun c hc9 => ?_, fun r hr9 => ?_⟩, fun i hi j hj => ?_⟩
    · by_cases hcc : c = col
      · exact Or.inl hcc
      · exact Or.inr (h row hr c hc9 (Or.inl rfl) (fun hh => hcc hh.2))
    · by_cases hrc : r = row
      · exact Or.inl hrc
      · exact Or.inr (h r hr9 col hc (Or.inr (Or.inl rfl)) (fun hh => hrc hh.1))
    · by_cases hrc : row / 3 * 3 + i = row ∧ col / 3 * 3 + j = col
      · exact Or.inl ⟨hrc.1, hrc.2⟩
      · refine Or.inr (h (row / 3 * 3 + i) (by omega) (col / 3 * 3 + j) (by omega)
          (Or.inr (Or.inr ⟨by omega, by omega⟩)) hrc)

theorem isValidMoveForGrid_iff (g : Grid) (row col v : Nat) (hr : row < 9) (hc : col < 9) :
    isValidMoveForGrid g row col v = true ↔
      ∀ r, r < 9 → ∀ c, c < 9 → SameUnit row col r c → g r c ≠ v := by
  simp only [isValidMoveForGrid, Bool.and_eq_true, List.all_eq_true, List.mem_range,
    bne_iff_ne, ne_eq]
  constructor
  · rintro ⟨⟨hrow, hcol⟩, hblock⟩ r hr9 c hc9 hunit
    rcases hunit with h | h | ⟨hbr, hbc⟩
    · subst h; exact hrow c hc9
    · subst h; exact hcol r hr9
    · have hi : r = row / 3 * 3 + (r - row / 3 * 3) ∧ r - row / 3 * 3 < 3 := by omega
      have hj : c = col / 3 * 3 + (c - col / 3 * 3) ∧ c - col / 3 * 3 < 3 := by omega
      have := hblock (r - row / 3 * 3) hi.2 (c - col / 3 * 3) hj.2
      rw [hi.1, hj.1]; exact this
  · intro h
    refine ⟨⟨fun c hc9 => h row hr c hc9 (Or.inl rfl),
        fun r hr9 => h r hr9 col hc (Or.inr (Or.inl rfl))⟩,
      fun i hi j hj => h (row / 3 * 3 + i) (by omega) (col / 3 * 3 + j) (by omega)
        (Or.inr (Or.inr ⟨by omega, by omega⟩))⟩

/-! Properties of the empty-cell scan. -/

theorem findEmptyCell_none (g : Grid) (h : findEmptyCell g = none) :
    ∀ r, r < 9 → ∀ c, c < 9 → g r c ≠ 0 := by
  intro r hr c hc
  simp only [findEmptyCell, List.findSome?_eq_none_iff, List.mem_range] at h
  have := h r hr c hc
  by_contra hz
  simp [hz] at this

theorem findEmptyCell_some (g : Grid) (r c : Nat) (h : findEmptyCell g = some (r, c)) :
    r < 9 ∧ c < 9 ∧ g r c = 0 := by
  obtain ⟨row, hrow, hrow2⟩ := List.exists_of_findSome?_eq_some h
  obtain ⟨col, hcol, hcol2⟩ := List.exists_of_findSome?_eq_some hrow2
  by_cases hz : g row col = 0
  · rw [if_pos hz] at hcol2
    simp only [Option.some.injEq, Prod.mk.injEq] at hcol2
    obtain ⟨h1, h2⟩ := hcol2
    subst h1; subst h2
    exact ⟨List.mem_range.mp hrow, List.mem_range.mp hcol, hz⟩
  · simp [hz] at hcol2

/-! Restoration: the solver undoes every tentative placement on the way
to a failure, so a failed call leaves the grid exactly as it found it. -/

theorem tryNums_restore (solveRest : Grid → Bool × Grid)
    (hrest : ∀ g', (solveRest g').1 = false → (solveRest g').2 = g')
    (row col : Nat) (nums : List Nat) :
    ∀ g, g row col = 0 → (tryNums solveRest row col g nums).1 = false →
      (tryNums solveRest row col g nums).2 = g := by
  induction nums with
  | nil => intro g _ _; rfl
  | cons n rest ih =>
    intro g h0 hf
    by_cases hv : isValidMove g row col n = true
    · simp only [tryNums, hv, if_true] at hf ⊢
      cases hres : (solveRest (setCell g row col n)).1 with
      | true => simp [hres] at hf
      | false =>
        simp only [hres, Bool.false_eq_true, if_false] at hf ⊢
        have hr2 : (solveRest (setCell g row col n)).2 = setCell g row col n := hrest _ hres
        rw [hr2, setCell_setCell, setCell_eq_self g row col 0 h0] at hf ⊢
        exact ih g h0 hf
    · simp only [tryNums, hv, Bool.false_eq_true, if_false] at hf ⊢
      exact ih g h0 hf

theorem solveSudokuAux_restore :
    ∀ fuel g, (solveSudokuAux fuel g).1 = false → (solveSudokuAux fuel g).2 = g := by
  intro fuel
  induction fuel with
  | zero => intro g _; rfl
  | succ fuel ih =>
    intro g hf
    simp only [solveSudokuAux] at hf ⊢
    cases hemp : findEmptyCell g with
    | none => simp [hemp] at hf
    | some rc =>
      obtain ⟨row, col⟩ := rc
      rw [hemp] at hf
      exact tryNums_restore _ ih row col _ g (findEmptyCell_some g row col hemp).2.2 hf

/-! Soundness: a successful solver run yields a full, conflict-free
completion of its conflict-free input. -/

theorem SameUnit_symm (r c r' c' : Nat) (h : SameUnit r c r' c') : SameUnit r' c' r c := by
  rcases h with h | h | ⟨h1, h2⟩
  · exact Or.inl h.symm
  · exact Or.inr (Or.inl h.symm)
  · exact Or.inr (Or.inr ⟨h1.symm, h2.symm⟩)

theorem NoConflicts_setCell (g : Grid) (row col n : Nat) (hr : row < 9) (hc : col < 9)
    (_h0 : g row col = 0) (hv : isValidMove g row col n = true)
    (hnc : NoConflicts g) : NoConflicts (setCell g row col n) := by
  have hval := (isValidMove_iff g row col n hr hc).mp hv
  intro r hr9 c hc9 r' hr9' c' hc9' hne hunit hnz
  by_cases h1 : r = row ∧ c = col
  · by_cases h2 : r' = row ∧ c' = col
    · exact absurd ⟨h1.1.trans h2.1.symm, h1.2.trans h2.2.symm⟩ hne
    · rw [setCell_other g row col n r' c' h2]
      rw [h1.1, h1.2, setCell_self]
      rw [h1.1, h1.2] at hunit
      exact (hval r' hr9' c' hc9' hunit h2).symm
  · rw [setCell_other g row col n r c h1] at hnz ⊢
    by_cases h2 : r' = row ∧ c' = col
    · rw [h2.1, h2.2, setCell_self]
      have hunit' : SameUnit row col r c := by
        rw [h2.1, h2.2] at hunit
        exact SameUnit_symm r c row col hunit
      exact hval r hr9 c hc9 hunit' h1
    · rw [setCell_other g row col n r' c' h2]
      exact hnc r hr9 c hc9 r' hr9' c' hc9' hne hunit hnz

theorem WellFormed_setCell (g : Grid) (row col n : Nat) (hn : n ≤ 9)
    (hwf : WellFormed g) : WellFormed (setCell g row col n) := by
  intro r hr9 c hc9
  by_cases h : r = row ∧ c = col
  · rw [h.1, h.2, setCell_self]; exact hn
  · rw [setCell_other g row col n r c h]; exact hwf r hr9 c hc9

theorem Completes_of_setCell (g : Grid) (row col n : Nat) (h0 : g row col = 0)
    (s : Grid) (h : Completes (setCell g row col n) s) : Completes g s := by
  obtain ⟨hext, hfull, hwf, hnc⟩ := h
  refine ⟨?_, hfull, hwf, hnc⟩
  intro r hr9 c hc9 hnz
  have hne : ¬(r = row ∧ c = col) := by
    rintro ⟨h1, h2⟩
    rw [h1, h2] at hnz
    exact hnz h0
  have := hext r hr9 c hc9 (by rw [setCell_other g row col n r c hne]; exact hnz)
  rw [setCell_other g row col n r c hne] at this
  exact this

theorem tryNums_sound (solveRest : Grid → Bool × Grid)
    (hsound : ∀ g', WellFormed g' → NoConflicts g' → (solveRest g').1 = true →
      Completes g' (solveRest g').2)
    (hrest : ∀ g', (solveRest g').1 = false → (solveRest g').2 = g')
    (row col : Nat) (hr : row < 9) (hc : col < 9) (nums : List Nat)
    (hnums : ∀ n ∈ nums, 1 ≤ n ∧ n ≤ 9) :
    ∀ g, g row col = 0 → WellFormed g → NoConflicts g →
      (tryNums solveRest row col g nums).1 = true →
      Completes g (tryNums solveRest row col g nums).2 := by
  induction nums with
  | nil => intro g _ _ _ hf; exact absurd hf (by simp [tryNums])
  | cons n rest ih =>
    have hn := hnums n (List.mem_cons_self n rest)
    have hrest' : ∀ n ∈ rest, 1 ≤ n ∧ n ≤ 9 := fun m hm =>
      hnums m (List.mem_cons_of_mem n hm)
    intro g h0 hwf hnc hf
    by_cases hv : isValidMove g row col n = true
    · simp only [tryNums, hv, if_true] at hf ⊢
      cases hres : (solveRest (setCell g row col n)).1 with
      | true =>
        simp only [hres, if_true] at hf ⊢
        exact Completes_of_setCell g row col n h0 _
          (hsound _ (WellFormed_setCell g row col n hn.2 hwf)
            (NoConflicts_setCell g row col n hr hc h0 hv hnc) hres)
      | false =>
        simp only [hres, Bool.false_eq_true, if_false] at hf ⊢
        rw [hrest _ hres, setCell_setCell, setCell_eq_self g row col 0 h0] at hf ⊢
        exact ih hrest' g h0 hwf hnc hf
    · simp only [tryNums, hv, Bool.false_eq_true, if_false] at hf ⊢
      exact ih hrest' g h0 hwf hnc hf

theorem solveSudokuAux_sound :
    ∀ fuel g, WellFormed g → NoConflicts g → (solveSudokuAux fuel g).1 = true →
      Completes g (solveSudokuAux fuel g).2 := by
  intro fuel
  induction fuel with
  | zero => intro g _ _ hf; exact absurd hf (by simp [solveSudokuAux])
  | succ fuel ih =>
    intro g hwf hnc hf
    simp only [solveSudokuAux] at hf ⊢
    cases hemp : findEmptyCell g with
    | none =>
      exact ⟨fun r hr c hc _ => rfl, findEmptyCell_none g hemp, hwf, hnc⟩
    | some rc =>
      obtain ⟨row, col⟩ := rc
      rw [hemp] at hf
      obtain ⟨hr9, hc9, h0⟩ := findEmptyCell_some g row col hemp
      exact tryNums_sound _ ih (solveSudokuAux_restore fuel) row col hr9 hc9
        [1, 2, 3, 4, 5, 6, 7, 8, 9] (by intro n hn; fin_cases hn <;> omega)
        g h0 hwf hnc hf

/-! Restoration for the solution counter: every placement made during
the count is undone, including on the early-termination paths, so the
counted grid comes back exactly as it went in. -/

theorem countLoop_restore (next : Grid → Nat → Nat × Grid)
    (hnext : ∀ g' cnt', (next g' cnt').2 = g') (row col maxS : Nat) (nums : List Nat) :
    ∀ g cnt, g row col = 0 → (countLoop next row col maxS g cnt nums).2 = g := by
  induction nums with
  | nil => intro g cnt _; rfl
  | cons n rest ih =>
    intro g cnt h0
    by_cases hv : isValidMoveForGrid g row col n = true
    · simp only [countLoop, hv, if_true]
      have h2 : setCell (next (setCell g row col n) cnt).2 row col 0 = g := by
        rw [hnext, setCell_setCell, setCell_eq_self g row col 0 h0]
      by_cases hmax : maxS ≤ (next (setCell g row col n) cnt).1
      · rw [if_pos hmax]; exact h2
      · rw [if_neg hmax, h2]; exact ih g _ h0
    · simp only [countLoop, hv, Bool.false_eq_true, if_false]
      exact ih g cnt h0

theorem countSolutionsAux_restore :
    ∀ fuel g row col cnt maxS, (countSolutionsAux fuel g row col cnt maxS).2 = g := by
  intro fuel
  induction fuel with
  | zero => intro g row col cnt maxS; rfl
  | succ fuel ih =>
    intro g row col cnt maxS
    simp only [countSolutionsAux]
    by_cases h1 : maxS ≤ cnt
    · rw [if_pos h1]
    · rw [if_neg h1]
      by_cases h2 : row = 9
      · rw [if_pos h2]
      · rw [if_neg h2]
        by_cases h3 : col = 9
        · rw [if_pos h3]; exact ih g (row + 1) 0 cnt maxS
        · rw [if_neg h3]
          by_cases h4 : g row col ≠ 0
          · rw [if_pos h4]; exact ih g row (col + 1) cnt maxS
          · rw [if_neg h4]
            exact countLoop_restore _ (fun g' cnt' => ih g' row (col + 1) cnt' maxS)
              row col maxS _ g cnt (not_not.mp h4)

/-! The hint engine writes only into a cell it found empty. -/

theorem findNakedSingle_spec (g : Grid) (r c n : Nat)
    (h : findNakedSingle g = some (r, c, n)) : r < 9 ∧ c < 9 ∧ g r c = 0 := by
  obtain ⟨row, hrow, hrow2⟩ := List.exists_of_findSome?_eq_some h
  obtain ⟨col, hcol, hcol2⟩ := List.exists_of_findSome?_eq_some hrow2
  by_cases hz : g row col = 0
  · rw [if_pos hz] at hcol2
    cases hl : getPossibleNumbers g row col with
    | nil => rw [hl] at hcol2; simp at hcol2
    | cons m tl =>
      cases tl with
      | nil =>
        rw [hl] at hcol2
        simp only [Option.some.injEq, Prod.mk.injEq] at hcol2
        obtain ⟨h1, h2, _⟩ := hcol2
        subst h1; subst h2
        exact ⟨List.mem_range.mp hrow, List.mem_range.mp hcol, hz⟩
      | cons m2 tl2 => rw [hl] at hcol2; simp at hcol2
  · rw [if_neg hz] at hcol2; simp at hcol2

theorem blockCellList_mem (sr sc : Nat) (p : Nat × Nat) (h : p ∈ blockCellList sr sc) :
    ∃ i, i < 3 ∧ ∃ j, j < 3 ∧ p = (sr + i, sc + j) := by
  simp only [blockCellList, List.mem_flatMap, List.mem_map, List.mem_range] at h
  obtain ⟨i, hi, j, hj, hp⟩ := h
  exact ⟨i, hi, j, hj, hp.symm⟩

theorem findHiddenSingleRow_spec (g : Grid) (h' : Hint)
    (h : findHiddenSingleRow g = some h') : h'.row < 9 ∧ h'.col < 9 ∧ g h'.row h'.col = 0 := by
  obtain ⟨row, hrow, hrow2⟩ := List.exists_of_findSome?_eq_some h
  obtain ⟨num, hnum, hnum2⟩ := List.exists_of_findSome?_eq_some hrow2
  cases hl : (List.range 9).filter (fun col => g row col == 0 && isValidMove g row col num) with
  | nil => rw [hl] at hnum2; simp at hnum2
  | cons m tl =>
    cases tl with
    | nil =>
      rw [hl] at hnum2
      simp only [Option.some.injEq] at hnum2
      have hm : m ∈ (List.range 9).filter
          (fun col => g row col == 0 && isValidMove g row col num) := by
        rw [hl]; exact List.mem_singleton.mpr rfl
      rw [List.mem_filter, List.mem_range, Bool.and_eq_true, beq_iff_eq] at hm
      rw [← hnum2]
      exact ⟨List.mem_range.mp hrow, hm.1, hm.2.1⟩
    | cons m2 tl2 => rw [hl] at hnum2; simp at hnum2

theorem findHiddenSingleCol_spec (g : Grid) (h' : Hint)
    (h : findHiddenSingleCol g = some h') : h'.row < 9 ∧ h'.col < 9 ∧ g h'.row h'.col = 0 := by
  obtain ⟨col, hcol, hcol2⟩ := List.exists_of_findSome?_eq_some h
  obtain ⟨num, hnum, hnum2⟩ := List.exists_of_findSome?_eq_some hcol2
  cases hl : (List.range 9).filter (fun row => g row col == 0 && isValidMove g row col num) with
  | nil => rw [hl] at hnum2; simp at hnum2
  | cons m tl =>
    cases tl with
    | nil =>
      rw [hl] at hnum2
      simp only [Option.some.injEq] at hnum2
      have hm : m ∈ (List.range 9).filter
          (fun row => g row col == 0 && isValidMove g row col num) := by
        rw [hl]; exact List.mem_singleton.mpr rfl
      rw [List.mem_filter, List.mem_range, Bool.and_eq_true, beq_iff_eq] at hm
      rw [← hnum2]
      exact ⟨hm.1, List.mem_range.mp hcol, hm.2.1⟩
    | cons m2 tl2 => rw [hl] at hnum2; simp at hnum2

theorem findHiddenSingleBox_spec (g : Grid) (h' : Hint)
    (h : findHiddenSingleBox g = some h') : h'.row < 9 ∧ h'.col < 9 ∧ g h'.row h'.col = 0 := by
  obtain ⟨boxRow, hbr, hbr2⟩ := List.exists_of_findSome?_eq_some h
  obtain ⟨boxCol, hbc, hbc2⟩ := List.exists_of_findSome?_eq_some hbr2
  obtain ⟨num, hnum, hnum2⟩ := List.exists_of_findSome?_eq_some hbc2
  cases hl : (blockCellList (boxRow * 3) (boxCol * 3)).filter
      (fun p => g p.1 p.2 == 0 && isValidMove g p.1 p.2 num) with
  | nil => rw [hl] at hnum2; simp at hnum2
  | cons m tl =>
    cases tl with
    | nil =>
      rw [hl] at hnum2
      simp only [Option.some.injEq] at hnum2
      have hm : m ∈ (blockCellList (boxRow * 3) (boxCol * 3)).filter
          (fun p => g p.1 p.2 == 0 && isValidMove g p.1 p.2 num) := by
        rw [hl]; exact List.mem_singleton.mpr rfl
      rw [List.mem_filter, Bool.and_eq_true, beq_iff_eq] at hm
      obtain ⟨i, hi, j, hj, hp⟩ := blockCellList_mem _ _ _ hm.1
      have hbr9 := List.mem_range.mp hbr
      have hbc9 := List.mem_range.mp hbc
      rw [← hnum2]
      refine ⟨?_, ?_, hm.2.1⟩
      · show m.1 < 9; rw [hp]; simp; omega
      · show m.2 < 9; rw [hp]; simp; omega
    | cons m2 tl2 => rw [hl] at hnum2; simp at hnum2

theorem findHiddenSingle_spec (g : Grid) (h' : Hint)
    (h : findHiddenSingle g = some h') : h'.row < 9 ∧ h'.col < 9 ∧ g h'.row h'.col = 0 := by
  unfold findHiddenSingle at h
  cases h1 : findHiddenSingleRow g with
  | some x => rw [h1] at h; cases h; exact findHiddenSingleRow_spec g _ h1
  | none =>
    rw [h1] at h
    cases h2 : findHiddenSingleCol g with
    | some x => rw [h2] at h; cases h; exact findHiddenSingleCol_spec g _ h2
    | none => rw [h2] at h; exact findHiddenSingleBox_spec g _ h

theorem solveHint_preserves_nonzero (st : GameState) (r c : Nat)
    (hnz : st.grid r c ≠ 0) : (solveHint st).1.grid r c = st.grid r c := by
  unfold solveHint
  by_cases hw : st.isGameWon
  · rw [if_pos hw]
  · rw [if_neg hw]
    cases hn : findNakedSingle st.grid with
    | some rcn =>
      obtain ⟨row, col, n⟩ := rcn
      have h0 := (findNakedSingle_spec st.grid row col n hn).2.2
      show setCell st.grid row col n r c = st.grid r c
      apply setCell_other
      rintro ⟨rfl, rfl⟩
      exact hnz h0
    | none =>
      cases hh : findHiddenSingle st.grid with
      | some hint =>
        have h0 := (findHiddenSingle_spec st.grid hint hh).2.2
        show setCell st.grid hint.row hint.col hint.number r c = st.grid r c
        apply setCell_other
        rintro ⟨rfl, rfl⟩
        exact hnz h0
      | none => rfl

theorem hintIter_preserves_nonzero (n : Nat) :
    ∀ st : GameState, ∀ r c : Nat, st.grid r c ≠ 0 →
      (hintIter n st).grid r c = st.grid r c := by
  induction n with
  | zero => intro st r c _; rfl
  | succ n ih =>
    intro st r c hnz
    have hstep := solveHint_preserves_nonzero st r c hnz
    show (hintIter n (solveHint st).1).grid r c = st.grid r c
    rw [ih (solveHint st).1 r c (by rw [hstep]; exact hnz), hstep]

/-! The carving loop only ever blanks cells of the seed solution. -/

theorem carveLoop_value_cases (t : Nat) (ps : List (Nat × Nat)) :
    ∀ g removed r c, (carveLoop t g removed ps).1 r c = g r c ∨
      (carveLoop t g removed ps).1 r c = 0 := by
  induction ps with
  | nil => intro g removed r c; exact Or.inl rfl
  | cons p rest ih =>
    intro g removed r c
    simp only [carveLoop]
    by_cases hstop : t ≤ removed
    · rw [if_pos hstop]; exact Or.inl rfl
    · rw [if_neg hstop]
      by_cases hu : hasUniqueSolution (setCell g p.1 p.2 0) = true
      · rw [if_pos hu]
        rcases ih (setCell g p.1 p.2 0) (removed + 1) r c with h | h
        · by_cases hp : r = p.1 ∧ c = p.2
          · right; rw [h, hp.1, hp.2, setCell_self]
          · left; rw [h, setCell_other _ _ _ _ _ _ hp]
        · right; exact h
      · rw [if_neg hu]
        have hrestore : setCell (setCell g p.1 p.2 0) p.1 p.2 (g p.1 p.2) = g := by
          rw [setCell_setCell, setCell_eq_self g p.1 p.2 (g p.1 p.2) rfl]
        rw [hrestore]
        exact ih g removed r c

/-! The claim theorems. -/

/-- C9: the uniqueness oracle leaves all grid state visible outside the
call unchanged when it returns: `countSolutions` restores its grid on
every return path — for every fuel, starting position, running count and
cutoff, including early termination at the cutoff — and
`hasUniqueSolution`, which drives it with cutoff 2 on a private copy of
the caller's grid, reports exactly whether that count is 1. -/
theorem C9_counter_never_mutates_visible_grid :
    (∀ fuel g row col cnt maxS, (countSolutionsAux fuel g row col cnt maxS).2 = g) ∧
    (∀ g : Grid, hasUniqueSolution g = true ↔ (countSolutionsAux 100 g 0 0 0 2).1 = 1) := by
  refine ⟨countSolutionsAux_restore, fun g => ?_⟩
  simp [hasUniqueSolution, countSolutionsTop]

/-- C4 counterexample: the all-ones grid is fully filled, so `checkWin`
returns true, yet the consistency scan finds duplicates in every unit —
the claimed equivalence of `checkWin` with "filled AND conflict-free"
fails, as does the claim that a filled grid with duplicates is reported
unsolved. -/
theorem C4_counterexample :
    checkWin gOnes = true ∧ validateGameState gOnes = false :=
  ⟨by decide, by decide⟩

/-- C4 (amended): the terminal predicate `checkWin` returns true iff the
grid is completely filled; it performs no conflict scan, so a filled
grid containing duplicates is still reported as won. -/
theorem C4_checkWin_iff_filled (g : Grid) :
    checkWin g = true ↔ ∀ r, r < 9 → ∀ c, c < 9 → g r c ≠ 0 := by
  simp [checkWin, List.all_eq_true, List.mem_range]

/-- C4 witness: the equivalence applied to the all-ones grid at cell
`(0,0)`. -/
theorem C4_witness : gOnes 0 0 ≠ 0 :=
  (C4_checkWin_iff_filled gOnes).mp (by decide) 0 (by decide) 0 (by decide)

/-- C8 counterexample: with 5 stored at `(0,0)` and no other 5 anywhere
on the board, `isValidMoveForGrid` rejects value 5 at `(0,0)`: the
queried cell is NOT excluded from its scan, so the claimed
characterization of the placement validator fails for it. -/
theorem C8_counterexample :
    isValidMoveForGrid gSelf 0 0 5 = false ∧
      (∀ r, r < 9 → ∀ c, c < 9 → ¬(r = 0 ∧ c = 0) → gSelf r c ≠ 5) :=
  ⟨by decide, by decide⟩

/-- C8 (amended): `isValidMove` excludes the queried cell itself — true
iff no OTHER cell of the row, column or 3×3 block holds the value —
while `isValidMoveForGrid` performs no such exclusion — true iff NO cell
of those units, the queried cell included, holds the value. -/
theorem C8_validators_characterized (g : Grid) (row col v : Nat)
    (hr : row < 9) (hc : col < 9) :
    (isValidMove g row col v = true ↔
      ∀ r, r < 9 → ∀ c, c < 9 → SameUnit row col r c → ¬(r = row ∧ c = col) →
        g r c ≠ v) ∧
    (isValidMoveForGrid g row col v = true ↔
      ∀ r, r < 9 → ∀ c, c < 9 → SameUnit row col r c → g r c ≠ v) :=
  ⟨isValidMove_iff g row col v hr hc, isValidMoveForGrid_iff g row col v hr hc⟩

/-- C8 witness: `isValidMove` accepts re-asserting the 5 already stored
at `(0,0)` (self-exclusion), and `isValidMoveForGrid` accepts 5 on the
empty grid. -/
theorem C8_witness :
    isValidMove gSelf 0 0 5 = true ∧ isValidMoveForGrid (fun _ _ => 0) 0 0 5 = true :=
  ⟨(C8_validators_characterized gSelf 0 0 5 (by decide) (by decide)).1.mpr (by decide),
   (C8_validators_characterized (fun _ _ => 0) 0 0 5 (by decide) (by decide)).2.mpr
     (by decide)⟩

/-- C1 counterexample: `gTwoSol` has exactly two solutions — counting
with cutoff 2 returns 2 — yet it passes the generator's final validation
gate `validatePuzzleCompletely` at difficulty `hard`, where the
uniqueness check is skipped; a hard puzzle emitted through this gate
need not have a unique solution. -/
theorem C1_counterexample :
    validatePuzzleCompletely Difficulty.hard gTwoSol = true ∧
      countSolutionsTop gTwoSol 2 = 2 :=
  ⟨by decide, by decide⟩

/-- C1 (amended): at every difficulty OTHER than `hard`, a grid passing
the generator's final validation gate has exactly one solution, because
the gate includes the `hasUniqueSolution` check; at `hard`, both the
per-removal acceptance of `removeNumbersForDifficulty` and this gate
skip uniqueness and require only solvability. -/
theorem C1_nonhard_validated_puzzles_unique (d : Difficulty) (g : Grid)
    (hd : d ≠ Difficulty.hard) (hv : validatePuzzleCompletely d g = true) :
    countSolutionsTop g 2 = 1 := by
  unfold validatePuzzleCompletely at hv
  simp only [Bool.and_eq_true, Bool.or_eq_true, beq_iff_eq] at hv
  rcases hv.2 with h | h
  · exact absurd h hd
  · have h' : (countSolutionsTop g 2 == 1) = true := h
    exact beq_iff_eq.mp h'

/-- C1 witness: the one-blank puzzle passes full validation at `easy`
and indeed counts exactly one solution. -/
theorem C1_witness : countSolutionsTop gOneBlank 2 = 1 :=
  C1_nonhard_validated_puzzles_unique Difficulty.easy gOneBlank (by decide) (by decide)

/-- C2 counterexample: on a state whose cell `(0,0)` is a naked single,
a `solveHint` call changes that cell of the grid — the hint engine does
not leave every cell unchanged. -/
theorem C2_counterexample :
    (solveHint ⟨gNaked, false⟩).1.grid 0 0 ≠ gNaked 0 0 := by decide

/-- C2 (amended): `solveHint` both reports the forced move AND writes it
into the grid: when a hint `(row, col, value)` is returned, the target
cell was empty and now holds the value, while every other cell is
unchanged; when no hint is returned the grid is untouched
(`findHiddenSingle` itself only reports — the write happens in
`solveHint`). -/
theorem C2_solveHint_writes_exactly_hint_cell (st : GameState) :
    ((solveHint st).2 = none → ∀ r c, (solveHint st).1.grid r c = st.grid r c) ∧
    (∀ h : Hint, (solveHint st).2 = some h →
      st.grid h.row h.col = 0 ∧ (solveHint st).1.grid h.row h.col = h.number ∧
      ∀ r c, ¬(r = h.row ∧ c = h.col) → (solveHint st).1.grid r c = st.grid r c) := by
  unfold solveHint
  by_cases hw : st.isGameWon
  · rw [if_pos hw]
    exact ⟨fun _ r c => rfl, fun h hsome => by cases hsome⟩
  · rw [if_neg hw]
    cases hn : findNakedSingle st.grid with
    | some rcn =>
      obtain ⟨row, col, n⟩ := rcn
      have hspec := findNakedSingle_spec st.grid row col n hn
      refine ⟨(fun hnone => by cases hnone), fun h hsome => ?_⟩
      have hh : (⟨row, col, n, "naked single"⟩ : Hint) = h := Option.some.inj hsome
      subst hh
      exact ⟨hspec.2.2, setCell_self st.grid row col n,
        fun r c hne => setCell_other st.grid row col n r c hne⟩
    | none =>
      cases hhid : findHiddenSingle st.grid with
      | some hint =>
        have hspec := findHiddenSingle_spec st.grid hint hhid
        refine ⟨(fun hnone => by cases hnone), fun h hsome => ?_⟩
        have hh : hint = h := Option.some.inj hsome
        subst hh
        exact ⟨hspec.2.2, setCell_self st.grid hint.row hint.col hint.number,
          fun r c hne => setCell_other st.grid hint.row hint.col hint.number r c hne⟩
      | none =>
        exact ⟨fun _ r c => rfl, fun h hsome => by cases hsome⟩

/-- C2 witness: the amended description at the naked single of
`gNaked` — the cell was empty, now holds the hint value 1, and an
unrelated cell is unchanged. -/
theorem C2_witness :
    gNaked 0 0 = 0 ∧ (solveHint ⟨gNaked, false⟩).1.grid 0 0 = 1 ∧
      (solveHint ⟨gNaked, false⟩).1.grid 3 3 = gNaked 3 3 := by
  have h := (C2_solveHint_writes_exactly_hint_cell ⟨gNaked, false⟩).2
    ⟨0, 0, 1, "naked single"⟩ (by decide)
  exact ⟨h.1, h.2.1, h.2.2 3 3 (by decide)⟩

/-- C6 counterexample: the all-ones grid is completely filled but
conflicted, so it has no completion to a full valid solution; the claim
demands a `false` return, but the solver sees no empty cell and returns
`true`. -/
theorem C6_counterexample :
    (solveSudoku gOnes).1 = true ∧ ¬∃ s, Completes gOnes s := by
  refine ⟨by decide, ?_⟩
  rintro ⟨s, hext, hfull, hwf, hnc⟩
  have h00 : s 0 0 = 1 := hext 0 (by omega) 0 (by omega) (by decide)
  have h01 : s 0 1 = 1 := hext 0 (by omega) 1 (by omega) (by decide)
  exact hnc 0 (by omega) 0 (by omega) 0 (by omega) 1 (by omega)
    (fun hh => by omega) (Or.inl rfl) (by rw [h00]; omega) (h00.trans h01.symm)

/-- C6 (amended): for every well-formed grid whose filled cells are
pairwise conflict-free, if no completion to a full valid solution exists
then the in-place solver returns false, and the grid at the moment of
return equals its pre-call state cell for cell.  (On a completely filled
grid the solver returns true without validating anything — it only
validates cells it fills — which is what forces the conflict-freeness
hypothesis.) -/
theorem C6_solver_fails_and_restores (g : Grid) (hwf : WellFormed g)
    (hnc : NoConflicts g) (hno : ¬∃ s, Completes g s) :
    (solveSudoku g).1 = false ∧ (solveSudoku g).2 = g := by
  have h1 : (solveSudoku g).1 = false := by
    cases hb : (solveSudoku g).1
    · rfl
    · exact absurd ⟨_, solveSudokuAux_sound 82 g hwf hnc hb⟩ hno
  exact ⟨h1, solveSudokuAux_restore 82 g h1⟩

/-- The dead-cell grid `gDead` has no completion: a completion would
put some digit at `(0,0)`, but row 0 already holds 1–8 and column 0
holds 9. -/
theorem gDead_no_completion : ¬∃ s, Completes gDead s := by
  rintro ⟨s, hext, hfull, hwf, hnc⟩
  have h10 : s 1 0 = 9 := hext 1 (by omega) 0 (by omega) (by decide)
  have hlo : 1 ≤ s 0 0 :=
    Nat.one_le_iff_ne_zero.mpr (hfull 0 (by omega) 0 (by omega))
  have hhi : s 0 0 ≤ 9 := hwf 0 (by omega) 0 (by omega)
  have hvals : ∀ c, 1 ≤ c → c ≤ 8 → s 0 c = c := by
    intro c h1 h8
    have hg : gDead 0 c = c := by interval_cases c <;> decide
    exact (hext 0 (by omega) c (by omega) (by rw [hg]; omega)).trans hg
  rcases Nat.lt_or_ge (s 0 0) 9 with h9 | h9
  · have hm : s 0 (s 0 0) = s 0 0 := hvals (s 0 0) hlo (by omega)
    exact hnc 0 (by omega) 0 (by omega) 0 (by omega) (s 0 0) (by omega)
      (fun hh => by omega) (Or.inl rfl) (by omega) hm.symm
  · have h9' : s 0 0 = 9 := by omega
    exact hnc 0 (by omega) 0 (by omega) 1 (by omega) 0 (by omega)
      (fun hh => by omega) (Or.inr (Or.inl rfl)) (by omega)
      (by rw [h9', h10])

/-- C6 witness: on the conflict-free dead-cell grid the solver fails and
hands the grid back unchanged. -/
theorem C6_witness :
    (solveSudoku gDead).1 = false ∧ (solveSudoku gDead).2 = gDead :=
  C6_solver_fails_and_restores gDead (by decide) (by decide) gDead_no_completion

/-- C10 counterexample: the solved state is NOT only ever set on the
direct cell-placement path — starting from an unsolved state, the
auto-solve path `solvePuzzle` also sets `isGameWon` (its completion of
the one-blank puzzle matches the stored solution, so it calls
`gameWon()`), without any `checkWin` call on that path. -/
theorem C10_counterexample :
    (⟨gOneBlank, false⟩ : GameState).isGameWon = false ∧
    (solvePuzzle ⟨gOneBlank, false⟩ gBase).isGameWon = true :=
  ⟨rfl, by decide⟩

/-- C10 (amended): a hint call never establishes the solved state —
`solveHint` returns with `isGameWon` exactly as it found it, even when
its write fills the last empty cell.  The solved state is set on the
direct cell-placement path `setNumber`, exactly when the committed move
is accepted and `checkWin` reports the mutated grid full, and ALSO on
the auto-solve path `solvePuzzle`, exactly when the solver completes
the grid and the completion matches the stored solution — that path
calls `gameWon()` directly, with no `checkWin`. -/
theorem C10_win_flag_paths (st : GameState) (row col number : Nat) (sol : Grid) :
    (solveHint st).1.isGameWon = st.isGameWon ∧
    (st.isGameWon = false →
      ((setNumber st row col number).isGameWon = true ↔
        (number == 0 || isValidMove (setCell st.grid row col number) row col number) =
            true ∧
          checkWin (setCell st.grid row col number) = true)) ∧
    (st.isGameWon = false →
      ((solvePuzzle st sol).isGameWon = true ↔
        (solveSudokuForGrid st.grid).1 = true ∧
          matchesSolution (solveSudokuForGrid st.grid).2 sol = true)) := by
  refine ⟨?_, ?_, ?_⟩
  · unfold solveHint
    by_cases hw : st.isGameWon
    · rw [if_pos hw]
    · rw [if_neg hw]
      cases findNakedSingle st.grid with
      | some rcn => obtain ⟨r, c, n⟩ := rcn; rfl
      | none =>
        cases findHiddenSingle st.grid with
        | some h => rfl
        | none => rfl
  · intro hw
    unfold setNumber
    by_cases hcommit :
        (number == 0 || isValidMove (setCell st.grid row col number) row col number) = true
    · rw [if_pos hcommit]
      by_cases hwin : checkWin (setCell st.grid row col number) = true
      · rw [if_pos hwin]
        simp only [true_iff]
        exact ⟨hcommit, hwin⟩
      · rw [if_neg hwin]
        simp only [hw]
        constructor
        · intro hfalse; cases hfalse
        · rintro ⟨_, hwin'⟩; exact absurd hwin' hwin
    · rw [if_neg hcommit]
      simp only [hw]
      constructor
      · intro hfalse; cases hfalse
      · rintro ⟨hcommit', _⟩; exact absurd hcommit' hcommit
  · intro hw
    unfold solvePuzzle
    rw [if_neg (by rw [hw]; exact Bool.false_ne_true)]
    by_cases hs : (solveSudokuForGrid st.grid).1 = true
    · rw [if_pos hs]
      by_cases hm : matchesSolution (solveSudokuForGrid st.grid).2 sol = true
      · rw [if_pos hm]
        exact iff_of_true rfl ⟨hs, hm⟩
      · rw [if_neg hm]
        simp only [hw]
        constructor
        · intro hfalse; cases hfalse
        · rintro ⟨_, hm'⟩; exact absurd hm' hm
    · rw [if_neg hs]
      rw [hw]
      constructor
      · intro hfalse; cases hfalse
      · rintro ⟨hs', _⟩; exact absurd hs' hs

/-- C10 witness: on the play state one cell short of completion, the
hint that fills the last cell leaves `isGameWon` false even though the
grid is then full, while both the direct placement of the missing value
and the auto-solve path set it. -/
theorem C10_witness :
    (solveHint ⟨gAlmost, false⟩).1.isGameWon = false ∧
    checkWin (solveHint ⟨gAlmost, false⟩).1.grid = true ∧
    (setNumber ⟨gAlmost, false⟩ 0 0 5).isGameWon = true ∧
    (solvePuzzle ⟨gAlmost, false⟩ gBase).isGameWon = true := by
  refine ⟨(C10_win_flag_paths ⟨gAlmost, false⟩ 0 0 0 gBase).1, by decide, ?_, ?_⟩
  · exact ((C10_win_flag_paths ⟨gAlmost, false⟩ 0 0 5 gBase).2.1 rfl).mpr
      ⟨by decide, by decide⟩
  · exact ((C10_win_flag_paths ⟨gAlmost, false⟩ 0 0 5 gBase).2.2 rfl).mpr
      ⟨by decide, by decide⟩

/-- C5 counterexample: an 82-character all-digit puzzle string has the
wrong length, yet `loadPuzzleFromLibrary` populates the grid and the
given mask from it — nothing on the loading path rejects malformed
input. -/
theorem C5_counterexample :
    (List.replicate 82 '5').length ≠ 81 ∧
    (loadPuzzleFromLibrary (List.replicate 82 '5') (List.replicate 82 '1')).grid 0 0 =
        some 5 ∧
    (loadPuzzleFromLibrary (List.replicate 82 '5') (List.replicate 82 '1')).givenCells 0 0 =
        true :=
  ⟨by decide, by decide, by decide⟩

/-- C5 (amended): the loader performs no boundary validation — for
every pair of strings, well-formed or not, each of the 81 cells is
populated straight from its character: the cell is marked given iff its
character is not `'.'`, a digit character stores its digit value, a
`'.'` stores an empty cell, and a missing or non-digit character stores
`NaN` in a cell still marked as given. -/
theorem C5_loader_never_rejects (p s : List Char) (r c : Nat) (hr : r < 9) (hc : c < 9) :
    ((loadPuzzleFromLibrary p s).givenCells r c = true ↔ p.get? (r * 9 + c) ≠ some '.') ∧
    (∀ ch : Char, p.get? (r * 9 + c) = some ch → ch.isDigit = true →
      (loadPuzzleFromLibrary p s).grid r c = some (ch.toNat - 48)) ∧
    (p.get? (r * 9 + c) = some '.' → (loadPuzzleFromLibrary p s).grid r c = some 0) ∧
    (p.get? (r * 9 + c) = none → (loadPuzzleFromLibrary p s).grid r c = none ∧
      (loadPuzzleFromLibrary p s).givenCells r c = true) := by
  have hrc : r < 9 ∧ c < 9 := ⟨hr, hc⟩
  refine ⟨?_, ?_, ?_, ?_⟩
  · show (if r < 9 ∧ c < 9 then decide (p.get? (r * 9 + c) ≠ some '.') else false) = true ↔ _
    rw [if_pos hrc, decide_eq_true_iff]
  · intro ch hch hdig
    show (if r < 9 ∧ c < 9 then _ else _) = _
    rw [if_pos hrc, hch]
    have hdot : ch ≠ '.' := by
      rintro rfl; cases hdig
    rw [if_pos (by simpa using hdot)]
    simp [parseIntChar, hdig]
  · intro hch
    show (if r < 9 ∧ c < 9 then _ else _) = _
    rw [if_pos hrc, hch, if_neg (by simp)]
  · intro hch
    constructor
    · show (if r < 9 ∧ c < 9 then _ else _) = _
      rw [if_pos hrc, hch, if_pos (by simp)]
      rfl
    · show (if r < 9 ∧ c < 9 then decide (p.get? (r * 9 + c) ≠ some '.') else false) = true
      rw [if_pos hrc, hch]
      decide

/-- C5 witness: the loader's per-character behaviour at cell `(0,0)` of
the malformed 82-character input. -/
theorem C5_witness :
    (loadPuzzleFromLibrary (List.replicate 82 '5') []).givenCells 0 0 = true ∧
    (loadPuzzleFromLibrary (List.replicate 82 '5') []).grid 0 0 = some 5 := by
  have h := C5_loader_never_rejects (List.replicate 82 '5') [] 0 0
    (by decide) (by decide)
  exact ⟨h.1.mpr (by decide), h.2.1 '5' (by decide) (by decide)⟩

/-- C3: the varied-puzzle carving path completes without an exception
for every removal pattern and every randomness: `generateRemovalPositions`
always yields a position list — in particular the `random` and
`blockwise` branches receive a real list from the live `shuffleArray`'s
return value, and the spiral loop terminates within its fuel — and
`createVariedPuzzle` always returns a result rather than failing. -/
theorem C3_carving_never_throws (rnd : Nat → Nat) (k : Nat) (p : Pattern)
    (d : Difficulty) (sol : Grid) :
    (generateRemovalPositions rnd k p).isSome = true ∧
    ∃ out, createVariedPuzzle rnd k d sol = some out := by
  have hall : ∀ (rnd' : Nat → Nat) (k' : Nat) (q : Pattern),
      (generateRemovalPositions rnd' k' q).isSome = true := by
    intro rnd' k' q
    cases q with
    | random => rfl
    | blockwise => rfl
    | rowwise => rfl
    | columnwise => rfl
    | spiral =>
      show generateSpiralPositions.isSome = true
      decide
    | checkerboard => rfl
  refine ⟨hall rnd k p, ?_⟩
  unfold createVariedPuzzle
  cases hpos : generateRemovalPositions rnd (k + 1)
      (removalPatterns.getD (rnd k % removalPatterns.length) Pattern.random) with
  | none =>
    have := hall rnd (k + 1) (removalPatterns.getD (rnd k % removalPatterns.length)
      Pattern.random)
    rw [hpos] at this
    cases this
  | some ps =>
    exact ⟨_, rfl⟩

/-- C7: for every puzzle produced by `createVariedPuzzle`, every cell
whose given mask is true holds the solution's value at that cell, and
this still holds after any finite number of hint-engine calls: the
carving loop only ever blanks cells of the seed solution, given cells
are exactly the remaining non-empty cells, and `solveHint` writes only
into cells it found empty. -/
theorem C7_givens_match_solution_and_survive_hints (rnd : Nat → Nat) (k : Nat)
    (d : Difficulty) (sol : Grid) (out : PuzzleOut)
    (hgen : createVariedPuzzle rnd k d sol = some out)
    (r c : Nat) (hmask : out.givenMask r c = true) (n : Nat) :
    out.grid r c = sol r c ∧ (hintIter n ⟨out.grid, false⟩).grid r c = sol r c := by
  unfold createVariedPuzzle at hgen
  cases hpos : generateRemovalPositions rnd (k + 1)
      (removalPatterns.getD (rnd k % removalPatterns.length) Pattern.random) with
  | none => rw [hpos] at hgen; cases hgen
  | some ps =>
    rw [hpos] at hgen
    have hout := Option.some.inj hgen
    subst hout
    have hnz : (carveLoop (81 - difficulties d) sol 0 ps).1 r c ≠ 0 :=
      bne_iff_ne.mp hmask
    have hval : (carveLoop (81 - difficulties d) sol 0 ps).1 r c = sol r c := by
      rcases carveLoop_value_cases (81 - difficulties d) ps sol 0 r c with h | h
      · exact h
      · exact absurd h hnz
    exact ⟨hval, by
      rw [hintIter_preserves_nonzero n ⟨(carveLoop (81 - difficulties d) sol 0 ps).1,
        false⟩ r c hnz]
      exact hval⟩

/-- C7 witness: carving the identical-rows seed with the checkerboard
pattern (random oracle constantly 5) rejects every removal, so every
cell is given; cell `(0,0)` matches the seed and still does after two
hint calls. -/
theorem C7_witness :
    ((createVariedPuzzle rnd5 0 Difficulty.easy solRows).getD defaultOut).grid 0 0 =
        solRows 0 0 ∧
    (hintIter 2 ⟨((createVariedPuzzle rnd5 0 Difficulty.easy solRows).getD
        defaultOut).grid, false⟩).grid 0 0 = solRows 0 0 := by
  have hsome : createVariedPuzzle rnd5 0 Difficulty.easy solRows =
      some ((createVariedPuzzle rnd5 0 Difficulty.easy solRows).getD defaultOut) := rfl
  have hmask : ((createVariedPuzzle rnd5 0 Difficulty.easy solRows).getD
      defaultOut).givenMask 0 0 = true := by decide
  exact C7_givens_match_solution_and_survive_hints rnd5 0 Difficulty.easy solRows _
    hsome 0 0 hmask 2

end Sudoku
